import Mathlib

/-!
# Verification of the combustion mesh codec

Shallow embedding of `src/combustion_protocols/src/mesh/storage.rs`:
`load_mesh_from_reader` (decode) and `save_mesh_to_builder` (encode), together
with the mesh data model and the wire-message model they operate on.

32-bit floating components are represented by their bit patterns (a `Nat`
below `2^32`): the codec never performs arithmetic on the floats, it only
copies them, so value identity of bit patterns is exactly the "bit-identical
floating components" the properties speak about.  Raw byte blobs are lists of
bytes; reinterpreting a blob as packed records is modelled by explicit
little-endian field unpacking at fixed offsets, matching the packed layout
contract (8 × 32-bit floats per `Vertex`, no padding).

The `usize → u32` length casts performed by the encoder are modelled as exact,
i.e. the embedding considers meshes whose sequence lengths fit in `u32`.
-/

namespace Combustion

/-- Modelled from the spec: `Point3f` has three 32-bit floating components
(the `data` module of the repository is not under `src/`). -/
structure Point3f where
  x : Nat
  y : Nat
  z : Nat
deriving DecidableEq

/-- Modelled from the spec: `Vector3f` has three 32-bit floating components. -/
structure Vector3f where
  x : Nat
  y : Nat
  z : Nat
deriving DecidableEq

/-- Modelled from the spec: `TexCoord` has two 32-bit floating components. -/
structure TexCoord where
  u : Nat
  v : Nat
deriving DecidableEq

/-- Modelled from the spec: `Vertex { position, normal, uv }`, fixed field
order, no padding between fields (raw record layout contract, spec §6). -/
structure Vertex where
  position : Point3f
  normal : Vector3f
  uv : TexCoord
deriving DecidableEq

/-- Modelled from the spec: `Vertices` — discrete parallel attribute arrays;
`positions` required, `normals` and `uvs` independently optional. -/
structure Vertices where
  positions : List Point3f
  normals : Option (List Vector3f)
  uvs : Option (List TexCoord)
deriving DecidableEq

/-- Modelled from the spec: the two in-memory vertex-layout variants. -/
inductive MeshVertices where
  | Interleaved (vs : List Vertex)
  | Discrete (vs : Vertices)
deriving DecidableEq

/-- Modelled from the spec: `Mesh { vertices, indices, materials }`; indices
are optional unsigned 32-bit values, materials are small copyable IDs. -/
structure Mesh where
  vertices : MeshVertices
  indices : Option (List Nat)
  materials : List Nat
deriving DecidableEq

/-- Modelled from the spec (§7): the error kinds surfaced by this subsystem —
`InvalidLength`, and wrapped codec errors propagated unchanged (the `error`
module of the repository is not under `src/`).  Codec errors are tagged by an
opaque code. -/
inductive ProtocolError where
  | invalidLength
  | codec (code : Nat)
deriving DecidableEq

/-! ## Packed byte layout

Modelled from the spec (§6 raw record layout contract): a `Vertex` record is
8 thirty-two-bit floats in field order, tightly packed; `Point3f` is 3,
`Vector3f` is 3, `TexCoord` is 2 such values; native byte order (little
endian on the reference platform). -/

/-- `mem::size_of::<data::Vertex>()`: 8 × 4 bytes, packed. -/
def vertexSize : Nat := 32

/-- `mem::size_of::<Point3<f32>>()`: 3 × 4 bytes, packed. -/
def pointSize : Nat := 12

/-- `mem::size_of::<Vector3<f32>>()`: 3 × 4 bytes, packed. -/
def vectorSize : Nat := 12

/-- `mem::size_of::<data::TexCoord>()`: 2 × 4 bytes, packed. -/
def texcoordSize : Nat := 8

/-- The four little-endian bytes of one 32-bit word. -/
def wordToBytes (x : Nat) : List Nat :=
  [x % 256, x / 256 % 256, x / 65536 % 256, x / 16777216 % 256]

/-- Reinterpret a byte sequence as consecutive little-endian 32-bit words
(any trailing bytes beyond the last whole word carry no word). -/
def bytesToWords : List Nat → List Nat
  | b0 :: b1 :: b2 :: b3 :: rest =>
      (b0 + 256 * b1 + 65536 * b2 + 16777216 * b3) :: bytesToWords rest
  | _ => []

/-- The words of one `Vertex` record, in field order: position.x,y,z,
normal.x,y,z, uv.u,v. -/
def vertexToWords (v : Vertex) : List Nat :=
  [v.position.x, v.position.y, v.position.z,
   v.normal.x, v.normal.y, v.normal.z,
   v.uv.u, v.uv.v]

/-- The words of one `Point3f` record. -/
def pointToWords (p : Point3f) : List Nat := [p.x, p.y, p.z]

/-- The words of one `Vector3f` record. -/
def vectorToWords (n : Vector3f) : List Nat := [n.x, n.y, n.z]

/-- The words of one `TexCoord` record. -/
def texcoordToWords (t : TexCoord) : List Nat := [t.u, t.v]

/-- Group consecutive words into `Vertex` records (8 words each). -/
def wordsToVertices : List Nat → List Vertex
  | px :: py :: pz :: nx :: ny :: nz :: tu :: tv :: rest =>
      ⟨⟨px, py, pz⟩, ⟨nx, ny, nz⟩, ⟨tu, tv⟩⟩ :: wordsToVertices rest
  | _ => []

/-- Group consecutive words into `Point3f` records (3 words each). -/
def wordsToPoints : List Nat → List Point3f
  | px :: py :: pz :: rest => ⟨px, py, pz⟩ :: wordsToPoints rest
  | _ => []

/-- Group consecutive words into `Vector3f` records (3 words each). -/
def wordsToVectors : List Nat → List Vector3f
  | nx :: ny :: nz :: rest => ⟨nx, ny, nz⟩ :: wordsToVectors rest
  | _ => []

/-- Group consecutive words into `TexCoord` records (2 words each). -/
def wordsToTexCoords : List Nat → List TexCoord
  | tu :: tv :: rest => ⟨tu, tv⟩ :: wordsToTexCoords rest
  | _ => []

/-- The byte image of a word sequence. -/
def blobOfWords (ws : List Nat) : List Nat :=
  (ws.map wordToBytes).flatten

/-- The backing memory of an interleaved vertex array, as one byte blob
(`slice::from_raw_parts(vertices.as_ptr() as *const u8, len * size_of::<Vertex>())`). -/
def verticesBlob (vs : List Vertex) : List Nat :=
  blobOfWords ((vs.map vertexToWords).flatten)

/-- The backing memory of a `Point3f` array, as one byte blob. -/
def pointsBlob (ps : List Point3f) : List Nat :=
  blobOfWords ((ps.map pointToWords).flatten)

/-- The backing memory of a `Vector3f` array, as one byte blob. -/
def vectorsBlob (ns : List Vector3f) : List Nat :=
  blobOfWords ((ns.map vectorToWords).flatten)

/-- The backing memory of a `TexCoord` array, as one byte blob. -/
def texcoordsBlob (ts : List TexCoord) : List Nat :=
  blobOfWords ((ts.map texcoordToWords).flatten)

/-! ## Wire message model

The external codec exposes a parsed mesh message through typed accessors
(`protocol::mesh::Reader`).  The payloads a well-formed message can carry are
the four vertex-layout variants, the optional-tag convention for `indices`,
`normals`, `uvs`, and the materials list.  Each of the three top-level reads
the decoder performs (`get_indices`/`which`, `get_materials`,
`get_vertices().which()`) is fallible in the source (`try_throw!`); the
corresponding field of the wire model is an `Except` so that underlying codec
errors and their propagation can be expressed. -/

/-- The wire vertex-layout tagged union: the four variants of
`protocol::mesh::vertices`.  Raw variants carry byte blobs. -/
inductive WireVertices where
  | interleaved (vs : List Vertex)
  | discrete (positions : List Point3f) (normals : Option (List Vector3f))
      (uvs : Option (List TexCoord))
  | interleavedRaw (blob : List Nat)
  | discreteRaw (positions : List Nat) (normals : Option (List Nat))
      (uvs : Option (List Nat))
deriving DecidableEq

/-- Equality of `Except` results is decidable when it is on both sides. -/
instance instDecEqExcept {ε α : Type} [DecidableEq ε] [DecidableEq α] :
    DecidableEq (Except ε α) := fun a b =>
  match a, b with
  | .error e, .error f => decidable_of_iff (e = f) (by simp)
  | .error _, .ok _ => isFalse (by simp)
  | .ok _, .error _ => isFalse (by simp)
  | .ok x, .ok y => decidable_of_iff (x = y) (by simp)

/-- The wire mesh message as the decoder reads it: each top-level accessor
either yields its payload or fails with an underlying codec error. -/
structure WireMesh where
  indices : Except ProtocolError (Option (List Nat))
  materials : Except ProtocolError (List Nat)
  vertices : Except ProtocolError WireVertices
deriving DecidableEq

/-! ## Decoder: `load_mesh_from_reader` -/

/-- Decode the vertices union, mirroring the `match vertices_reader.which()`
dispatch of `load_mesh_from_reader` (storage.rs lines 37-190).  Per-element
accessor conversions (`get_point`, `get_vector`, `get_texcoord`) are value
copies; each raw blob is length-checked against its element's fixed byte size
and reinterpreted as packed records. -/
def loadVertices : WireVertices → Except ProtocolError MeshVertices
  | .interleaved vs =>
      Except.ok (MeshVertices.Interleaved
        (vs.map fun v => ⟨v.position, v.normal, v.uv⟩))
  | .discrete rawPositions rawNormalsOption rawUvsOption =>
      Except.ok (MeshVertices.Discrete
        { positions := rawPositions.map fun p => ⟨p.x, p.y, p.z⟩
          normals :=
            match rawNormalsOption with
            | some rawNormals => some (rawNormals.map fun n => ⟨n.x, n.y, n.z⟩)
            | none => none
          uvs :=
            match rawUvsOption with
            | some rawUvs => some (rawUvs.map fun t => ⟨t.u, t.v⟩)
            | none => none })
  | .interleavedRaw verticesData =>
      -- Check that this is probably even vertex data in the first place
      if verticesData.length % vertexSize ≠ 0 then
        Except.error ProtocolError.invalidLength
      else
        Except.ok (MeshVertices.Interleaved
          (wordsToVertices (bytesToWords verticesData)))
  | .discreteRaw positionsData normalsDataOption uvsDataOption => do
      let positions ←
        if positionsData.length % pointSize ≠ 0 then
          Except.error ProtocolError.invalidLength
        else
          Except.ok (wordsToPoints (bytesToWords positionsData))
      let normals ←
        match normalsDataOption with
        | some normalsData =>
            if normalsData.length % vectorSize ≠ 0 then
              Except.error ProtocolError.invalidLength
            else
              Except.ok (some (wordsToVectors (bytesToWords normalsData)))
        | none => Except.ok none
      let uvs ←
        match uvsDataOption with
        | some uvsData =>
            if uvsData.length % texcoordSize ≠ 0 then
              Except.error ProtocolError.invalidLength
            else
              Except.ok (some (wordsToTexCoords (bytesToWords uvsData)))
        | none => Except.ok none
      Except.ok (MeshVertices.Discrete
        { positions := positions, normals := normals, uvs := uvs })

/-- `load_mesh_from_reader` (storage.rs lines 17-197): read indices (optional
tag), then materials (positional copy), then dispatch on the vertices union;
assemble `Mesh { vertices, indices, materials }`.  The first failing step
aborts the whole decode. -/
def loadMeshFromReader (meshReader : WireMesh) : Except ProtocolError Mesh := do
  let indicesOption ← meshReader.indices
  let indices : Option (List Nat) :=
    match indicesOption with
    | some indicesList => some (indicesList.map fun i => i)
    | none => none
  let materialsRaw ← meshReader.materials
  let materials := materialsRaw.map fun m => m
  let whichVertices ← meshReader.vertices
  let vertices ← loadVertices whichVertices
  Except.ok { vertices := vertices, indices := indices, materials := materials }

/-! ## Encoder: `save_mesh_to_builder` -/

/-- Encode the vertices union: the `match mesh.vertices` dispatch of
`save_mesh_to_builder` (storage.rs lines 226-324) over the pair
(vertex-layout variant, `raw` flag).  The guard chain mirrors the source's
guarded arms; the final `none` is the `_ => unreachable!()` fallback arm. -/
def encodeVertices (mv : MeshVertices) (raw : Bool) : Option WireVertices :=
  match mv with
  | .Discrete vs =>
      if raw = false then
        some (WireVertices.discrete
          (vs.positions.map fun p => ⟨p.x, p.y, p.z⟩)
          (match vs.normals with
           | some normals => some (normals.map fun n => ⟨n.x, n.y, n.z⟩)
           | none => none)
          (match vs.uvs with
           | some uvs => some (uvs.map fun t => ⟨t.u, t.v⟩)
           | none => none))
      else if raw = true then
        some (WireVertices.discreteRaw
          (pointsBlob vs.positions)
          (match vs.normals with
           | some normals => some (vectorsBlob normals)
           | none => none)
          (match vs.uvs with
           | some uvs => some (texcoordsBlob uvs)
           | none => none))
      else none
  | .Interleaved vs =>
      if raw = false then
        some (WireVertices.interleaved
          (vs.map fun v => ⟨v.position, v.normal, v.uv⟩))
      else if raw = true then
        some (WireVertices.interleavedRaw (verticesBlob vs))
      else none

/-- The wire message produced by a successful `save_mesh_to_builder`
(storage.rs lines 200-328): indices written through the optional-tag
convention, materials copied positionally, vertices by the four-way dispatch.
`none` corresponds to the `unreachable!()` fallback arm being reached. -/
def saveMeshWire (mesh : Mesh) (raw : Bool) : Option WireMesh :=
  match encodeVertices mesh.vertices raw with
  | some wireVertices =>
      some
        { indices :=
            Except.ok
              (match mesh.indices with
               | some indicesList => some (indicesList.map fun i => i)
               | none => none)
          materials := Except.ok (mesh.materials.map fun m => m)
          vertices := Except.ok wireVertices }
  | none => none

/-! ## Builder state model

`save_mesh_to_builder` mutates a caller-supplied write view field by field:
indices, then materials, then the vertices union.  The only fallible write
operations in the source are the two `try_throw!(...set_some(blob))` calls in
the DiscreteRaw arm; every other write is infallible.  The builder state
records, for each field, whether it has been written and with what. -/

/-- The vertices union field of the write view: unset until the encoder's
dispatch writes it.  In the DiscreteRaw variant the three blob sub-fields are
written one at a time, so each is separately optional. -/
inductive VerticesField where
  | unset
  | interleaved (vs : List Vertex)
  | discrete (positions : List Point3f) (normals : Option (List Vector3f))
      (uvs : Option (List TexCoord))
  | interleavedRaw (blob : List Nat)
  | discreteRaw (positions : Option (List Nat)) (normals : Option (Option (List Nat)))
      (uvs : Option (Option (List Nat)))
deriving DecidableEq

/-- The mesh write view: `none` / `.unset` means the field has not been
written yet. -/
structure MeshBuilder where
  indices : Option (Option (List Nat))
  materials : Option (List Nat)
  vertices : VerticesField
deriving DecidableEq

/-- A fresh write view with no field written. -/
def MeshBuilder.empty : MeshBuilder :=
  { indices := none, materials := none, vertices := VerticesField.unset }

/-- Outcome of `save_mesh_to_builder`: success, a propagated write error, or
the `unreachable!()` fallback arm (a programming-invariant violation, not a
recoverable result). -/
inductive SaveOutcome where
  | ok
  | err (e : ProtocolError)
  | panic
deriving DecidableEq

/-- `save_mesh_to_builder` (storage.rs lines 200-328) as a state transformer
on the write view.  `setSome blob` models the underlying write layer's
fallible `set_some` for a raw byte blob (`none` = success); the first failure
aborts the encode, leaving the fields already written in place.  Writes
happen in source order: indices, materials, then the vertices dispatch; in
the DiscreteRaw arm: positions blob (infallible `set_positions`), normals
option, uvs option. -/
def saveMeshToBuilder (meshBuilder : MeshBuilder) (mesh : Mesh) (raw : Bool)
    (setSome : List Nat → Option ProtocolError) : MeshBuilder × SaveOutcome :=
  let b1 : MeshBuilder :=
    { meshBuilder with
      indices :=
        some
          (match mesh.indices with
           | some indicesList => some (indicesList.map fun i => i)
           | none => none) }
  let b2 : MeshBuilder :=
    { b1 with materials := some (mesh.materials.map fun m => m) }
  match mesh.vertices with
  | .Discrete vs =>
      if raw = false then
        ({ b2 with
           vertices :=
             VerticesField.discrete
               (vs.positions.map fun p => ⟨p.x, p.y, p.z⟩)
               (match vs.normals with
                | some normals => some (normals.map fun n => ⟨n.x, n.y, n.z⟩)
                | none => none)
               (match vs.uvs with
                | some uvs => some (uvs.map fun t => ⟨t.u, t.v⟩)
                | none => none) },
         SaveOutcome.ok)
      else if raw = true then
        let positionsBlob := pointsBlob vs.positions
        match vs.normals with
        | some normals =>
            match setSome (vectorsBlob normals) with
            | some e =>
                ({ b2 with
                   vertices := VerticesField.discreteRaw (some positionsBlob) none none },
                 SaveOutcome.err e)
            | none =>
                match vs.uvs with
                | some uvs =>
                    match setSome (texcoordsBlob uvs) with
                    | some e =>
                        ({ b2 with
                           vertices :=
                             VerticesField.discreteRaw (some positionsBlob)
                               (some (some (vectorsBlob normals))) none },
                         SaveOutcome.err e)
                    | none =>
                        ({ b2 with
                           vertices :=
                             VerticesField.discreteRaw (some positionsBlob)
                               (some (some (vectorsBlob normals)))
                               (some (some (texcoordsBlob uvs))) },
                         SaveOutcome.ok)
                | none =>
                    ({ b2 with
                       vertices :=
                         VerticesField.discreteRaw (some positionsBlob)
                           (some (some (vectorsBlob normals))) (some none) },
                     SaveOutcome.ok)
        | none =>
            match vs.uvs with
            | some uvs =>
                match setSome (texcoordsBlob uvs) with
                | some e =>
                    ({ b2 with
                       vertices :=
                         VerticesField.discreteRaw (some positionsBlob) (some none) none },
                     SaveOutcome.err e)
                | none =>
                    ({ b2 with
                       vertices :=
                         VerticesField.discreteRaw (some positionsBlob) (some none)
                           (some (some (texcoordsBlob uvs))) },
                     SaveOutcome.ok)
            | none =>
                ({ b2 with
                   vertices :=
                     VerticesField.discreteRaw (some positionsBlob) (some none) (some none) },
                 SaveOutcome.ok)
      else (b2, SaveOutcome.panic)
  | .Interleaved vs =>
      if raw = false then
        ({ b2 with
           vertices :=
             VerticesField.interleaved (vs.map fun v => ⟨v.position, v.normal, v.uv⟩) },
         SaveOutcome.ok)
      else if raw = true then
        ({ b2 with vertices := VerticesField.interleavedRaw (verticesBlob vs) },
         SaveOutcome.ok)
      else (b2, SaveOutcome.panic)

/-! ## Well-formedness

A `Mesh` is well formed when every 32-bit float component's bit pattern fits
in 32 bits — automatic for values decoded from a real wire message, and
exactly the condition under which the byte-level serialization of the raw
paths is faithful. -/

/-- A 32-bit word's bit pattern fits in 32 bits. -/
def wordWf (x : Nat) : Bool := x < 4294967296

/-- All components of a `Point3f` are 32-bit patterns. -/
def pointWf (p : Point3f) : Bool := wordWf p.x && wordWf p.y && wordWf p.z

/-- All components of a `Vector3f` are 32-bit patterns. -/
def vectorWf (n : Vector3f) : Bool := wordWf n.x && wordWf n.y && wordWf n.z

/-- All components of a `TexCoord` are 32-bit patterns. -/
def texcoordWf (t : TexCoord) : Bool := wordWf t.u && wordWf t.v

/-- All components of a `Vertex` are 32-bit patterns. -/
def vertexWf (v : Vertex) : Bool :=
  pointWf v.position && vectorWf v.normal && texcoordWf v.uv

/-- All components of a vertex payload are 32-bit patterns. -/
def meshVerticesWf : MeshVertices → Bool
  | .Interleaved vs => vs.all vertexWf
  | .Discrete vs =>
      vs.positions.all pointWf &&
      (match vs.normals with
       | some normals => normals.all vectorWf
       | none => true) &&
      (match vs.uvs with
       | some uvs => uvs.all texcoordWf
       | none => true)

/-- All float components of a `Mesh` are 32-bit patterns. -/
def meshWf (mesh : Mesh) : Bool := meshVerticesWf mesh.vertices

/-! ## Byte-layout lemmas -/

/-- Unpacking the four little-endian bytes of a 32-bit word at the head of a
byte stream recovers the word. -/
theorem bytesToWords_wordToBytes (x : Nat) (bs : List Nat) (h : x < 4294967296) :
    bytesToWords (wordToBytes x ++ bs) = x :: bytesToWords bs := by
  simp only [wordToBytes, List.cons_append, List.nil_append, bytesToWords]
  simp only [List.cons.injEq, and_true]
  constructor
  · omega
  · rfl

/-- Unpacking the byte image of a word sequence recovers the sequence. -/
theorem bytesToWords_blobOfWords (ws : List Nat) (h : ∀ x ∈ ws, x < 4294967296) :
    bytesToWords (blobOfWords ws) = ws := by
  induction ws with
  | nil => rfl
  | cons w ws ih =>
      have hw : w < 4294967296 := h w (List.mem_cons_self w ws)
      have hws : ∀ x ∈ ws, x < 4294967296 := fun x hx => h x (List.mem_cons_of_mem w hx)
      simp only [blobOfWords, List.map_cons, List.flatten_cons]
      rw [bytesToWords_wordToBytes w _ hw]
      exact congrArg (w :: ·) (ih hws)

/-- The byte image of a word sequence has four bytes per word. -/
theorem blobOfWords_length (ws : List Nat) : (blobOfWords ws).length = 4 * ws.length := by
  induction ws with
  | nil => rfl
  | cons w ws ih =>
      simp only [blobOfWords, List.map_cons, List.flatten_cons, List.length_append,
        List.length_cons] at *
      simp [wordToBytes, ih]
      omega

/-- Flattening lists of a fixed length `k` yields `k` elements per input. -/
theorem flatten_map_length {α β : Type} (f : α → List β) (k : Nat)
    (hf : ∀ a, (f a).length = k) (l : List α) :
    ((l.map f).flatten).length = k * l.length := by
  induction l with
  | nil => simp
  | cons a l ih =>
      simp only [List.map_cons, List.flatten_cons, List.length_append, ih, hf a,
        List.length_cons]
      ring

/-- Grouping the concatenated word images of vertices recovers the vertices. -/
theorem wordsToVertices_flatten (vs : List Vertex) :
    wordsToVertices ((vs.map vertexToWords).flatten) = vs := by
  induction vs with
  | nil => rfl
  | cons v vs ih => simp [vertexToWords, wordsToVertices, ih]

/-- Grouping the concatenated word images of points recovers the points. -/
theorem wordsToPoints_flatten (ps : List Point3f) :
    wordsToPoints ((ps.map pointToWords).flatten) = ps := by
  induction ps with
  | nil => rfl
  | cons p ps ih => simp [pointToWords, wordsToPoints, ih]

/-- Grouping the concatenated word images of vectors recovers the vectors. -/
theorem wordsToVectors_flatten (ns : List Vector3f) :
    wordsToVectors ((ns.map vectorToWords).flatten) = ns := by
  induction ns with
  | nil => rfl
  | cons n ns ih => simp [vectorToWords, wordsToVectors, ih]

/-- Grouping the concatenated word images of texcoords recovers the
texcoords. -/
theorem wordsToTexCoords_flatten (ts : List TexCoord) :
    wordsToTexCoords ((ts.map texcoordToWords).flatten) = ts := by
  induction ts with
  | nil => rfl
  | cons t ts ih => simp [texcoordToWords, wordsToTexCoords, ih]

/-- Every word of a well-formed vertex sequence fits in 32 bits. -/
theorem vertexWords_bound (vs : List Vertex) (h : vs.all vertexWf = true) :
    ∀ x ∈ (vs.map vertexToWords).flatten, x < 4294967296 := by
  intro x hx
  rw [List.mem_flatten] at hx
  obtain ⟨l, hl, hxl⟩ := hx
  rw [List.mem_map] at hl
  obtain ⟨v, hv, rfl⟩ := hl
  have hw := List.all_eq_true.mp h v hv
  simp only [vertexWf, pointWf, vectorWf, texcoordWf, wordWf, Bool.and_eq_true,
    decide_eq_true_eq] at hw
  simp only [vertexToWords, List.mem_cons, List.not_mem_nil, or_false] at hxl
  rcases hxl with rfl | rfl | rfl | rfl | rfl | rfl | rfl | rfl <;> omega

/-- Every word of a well-formed point sequence fits in 32 bits. -/
theorem pointWords_bound (ps : List Point3f) (h : ps.all pointWf = true) :
    ∀ x ∈ (ps.map pointToWords).flatten, x < 4294967296 := by
  intro x hx
  rw [List.mem_flatten] at hx
  obtain ⟨l, hl, hxl⟩ := hx
  rw [List.mem_map] at hl
  obtain ⟨p, hp, rfl⟩ := hl
  have hw := List.all_eq_true.mp h p hp
  simp only [pointWf, wordWf, Bool.and_eq_true, decide_eq_true_eq] at hw
  simp only [pointToWords, List.mem_cons, List.not_mem_nil, or_false] at hxl
  rcases hxl with rfl | rfl | rfl <;> omega

/-- Every word of a well-formed vector sequence fits in 32 bits. -/
theorem vectorWords_bound (ns : List Vector3f) (h : ns.all vectorWf = true) :
    ∀ x ∈ (ns.map vectorToWords).flatten, x < 4294967296 := by
  intro x hx
  rw [List.mem_flatten] at hx
  obtain ⟨l, hl, hxl⟩ := hx
  rw [List.mem_map] at hl
  obtain ⟨n, hn, rfl⟩ := hl
  have hw := List.all_eq_true.mp h n hn
  simp only [vectorWf, wordWf, Bool.and_eq_true, decide_eq_true_eq] at hw
  simp only [vectorToWords, List.mem_cons, List.not_mem_nil, or_false] at hxl
  rcases hxl with rfl | rfl | rfl <;> omega

/-- Every word of a well-formed texcoord sequence fits in 32 bits. -/
theorem texcoordWords_bound (ts : List TexCoord) (h : ts.all texcoordWf = true) :
    ∀ x ∈ (ts.map texcoordToWords).flatten, x < 4294967296 := by
  intro x hx
  rw [List.mem_flatten] at hx
  obtain ⟨l, hl, hxl⟩ := hx
  rw [List.mem_map] at hl
  obtain ⟨t, ht, rfl⟩ := hl
  have hw := List.all_eq_true.mp h t ht
  simp only [texcoordWf, wordWf, Bool.and_eq_true, decide_eq_true_eq] at hw
  simp only [texcoordToWords, List.mem_cons, List.not_mem_nil, or_false] at hxl
  rcases hxl with rfl | rfl <;> omega

/-- Raw round trip for interleaved vertices: reinterpreting the backing-memory
blob of a well-formed vertex sequence recovers the sequence. -/
theorem verticesBlob_rt (vs : List Vertex) (h : vs.all vertexWf = true) :
    wordsToVertices (bytesToWords (verticesBlob vs)) = vs := by
  rw [verticesBlob, bytesToWords_blobOfWords _ (vertexWords_bound vs h),
    wordsToVertices_flatten]

/-- Raw round trip for positions. -/
theorem pointsBlob_rt (ps : List Point3f) (h : ps.all pointWf = true) :
    wordsToPoints (bytesToWords (pointsBlob ps)) = ps := by
  rw [pointsBlob, bytesToWords_blobOfWords _ (pointWords_bound ps h),
    wordsToPoints_flatten]

/-- Raw round trip for normals. -/
theorem vectorsBlob_rt (ns : List Vector3f) (h : ns.all vectorWf = true) :
    wordsToVectors (bytesToWords (vectorsBlob ns)) = ns := by
  rw [vectorsBlob, bytesToWords_blobOfWords _ (vectorWords_bound ns h),
    wordsToVectors_flatten]

/-- Raw round trip for uvs. -/
theorem texcoordsBlob_rt (ts : List TexCoord) (h : ts.all texcoordWf = true) :
    wordsToTexCoords (bytesToWords (texcoordsBlob ts)) = ts := by
  rw [texcoordsBlob, bytesToWords_blobOfWords _ (texcoordWords_bound ts h),
    wordsToTexCoords_flatten]

/-- The vertices blob is 32 bytes per vertex. -/
theorem verticesBlob_length (vs : List Vertex) :
    (verticesBlob vs).length = 32 * vs.length := by
  rw [verticesBlob, blobOfWords_length,
    flatten_map_length vertexToWords 8 (fun v => rfl) vs]
  ring

/-- The positions blob is 12 bytes per point. -/
theorem pointsBlob_length (ps : List Point3f) :
    (pointsBlob ps).length = 12 * ps.length := by
  rw [pointsBlob, blobOfWords_length,
    flatten_map_length pointToWords 3 (fun p => rfl) ps]
  ring

/-- The normals blob is 12 bytes per vector. -/
theorem vectorsBlob_length (ns : List Vector3f) :
    (vectorsBlob ns).length = 12 * ns.length := by
  rw [vectorsBlob, blobOfWords_length,
    flatten_map_length vectorToWords 3 (fun n => rfl) ns]
  ring

/-- The uvs blob is 8 bytes per texcoord. -/
theorem texcoordsBlob_length (ts : List TexCoord) :
    (texcoordsBlob ts).length = 8 * ts.length := by
  rw [texcoordsBlob, blobOfWords_length,
    flatten_map_length texcoordToWords 2 (fun t => rfl) ts]
  ring

/-- Reinterpreting a byte sequence yields one word per four whole bytes. -/
theorem bytesToWords_length (bs : List Nat) :
    (bytesToWords bs).length = bs.length / 4 := by
  induction bs using bytesToWords.induct with
  | case1 b0 b1 b2 b3 rest ih =>
      simp only [bytesToWords, List.length_cons, ih]
      omega
  | case2 l h =>
      rcases l with _ | ⟨a, _ | ⟨b, _ | ⟨c, _ | ⟨d, r⟩⟩⟩⟩
      · rfl
      · simp [bytesToWords]
      · simp [bytesToWords]
      · simp [bytesToWords]
      · exact absurd rfl (h a b c d r)

/-- Grouping words yields one `Vertex` per eight whole words. -/
theorem wordsToVertices_length (ws : List Nat) :
    (wordsToVertices ws).length = ws.length / 8 := by
  induction ws using wordsToVertices.induct with
  | case1 px py pz nx ny nz tu tv rest ih =>
      simp only [wordsToVertices, List.length_cons, ih]
      omega
  | case2 l h =>
      rcases l with _ | ⟨a, _ | ⟨b, _ | ⟨c, _ | ⟨d, _ | ⟨e, _ | ⟨f, _ | ⟨g, _ | ⟨i, r⟩⟩⟩⟩⟩⟩⟩⟩
      · rfl
      · simp [wordsToVertices]
      · simp [wordsToVertices]
      · simp [wordsToVertices]
      · simp [wordsToVertices]
      · simp [wordsToVertices]
      · simp [wordsToVertices]
      · simp [wordsToVertices]
      · exact absurd rfl (h a b c d e f g i r)

/-- Grouping words yields one `Point3f` per three whole words. -/
theorem wordsToPoints_length (ws : List Nat) :
    (wordsToPoints ws).length = ws.length / 3 := by
  induction ws using wordsToPoints.induct with
  | case1 px py pz rest ih =>
      simp only [wordsToPoints, List.length_cons, ih]
      omega
  | case2 l h =>
      rcases l with _ | ⟨a, _ | ⟨b, _ | ⟨c, r⟩⟩⟩
      · rfl
      · simp [wordsToPoints]
      · simp [wordsToPoints]
      · exact absurd rfl (h a b c r)

/-- Grouping words yields one `Vector3f` per three whole words. -/
theorem wordsToVectors_length (ws : List Nat) :
    (wordsToVectors ws).length = ws.length / 3 := by
  induction ws using wordsToVectors.induct with
  | case1 nx ny nz rest ih =>
      simp only [wordsToVectors, List.length_cons, ih]
      omega
  | case2 l h =>
      rcases l with _ | ⟨a, _ | ⟨b, _ | ⟨c, r⟩⟩⟩
      · rfl
      · simp [wordsToVectors]
      · simp [wordsToVectors]
      · exact absurd rfl (h a b c r)

/-- Grouping words yields one `TexCoord` per two whole words. -/
theorem wordsToTexCoords_length (ws : List Nat) :
    (wordsToTexCoords ws).length = ws.length / 2 := by
  induction ws using wordsToTexCoords.induct with
  | case1 tu tv rest ih =>
      simp only [wordsToTexCoords, List.length_cons, ih]
      omega
  | case2 l h =>
      rcases l with _ | ⟨a, _ | ⟨b, r⟩⟩
      · rfl
      · simp [wordsToTexCoords]
      · exact absurd rfl (h a b r)


/-- Binding a successful `Except` runs the continuation. -/
@[simp] theorem ok_bind {ε α β : Type} (a : α) (f : α → Except ε β) :
    (Except.ok a : Except ε α) >>= f = f a := rfl

/-- Binding a failed `Except` short-circuits. -/
@[simp] theorem error_bind {ε α β : Type} (e : ε) (f : α → Except ε β) :
    (Except.error e : Except ε α) >>= f = Except.error e := rfl

/-- Reading a vertex record back field by field is the identity copy. -/
theorem map_vertex_eta (vs : List Vertex) :
    (vs.map fun v => (⟨v.position, v.normal, v.uv⟩ : Vertex)) = vs := by
  induction vs with
  | nil => rfl
  | cons v vs ih => simp [ih]

/-- Reading a point record back field by field is the identity copy. -/
theorem map_point_eta (ps : List Point3f) :
    (ps.map fun p => (⟨p.x, p.y, p.z⟩ : Point3f)) = ps := by
  induction ps with
  | nil => rfl
  | cons p ps ih => simp [ih]

/-- Reading a vector record back field by field is the identity copy. -/
theorem map_vector_eta (ns : List Vector3f) :
    (ns.map fun n => (⟨n.x, n.y, n.z⟩ : Vector3f)) = ns := by
  induction ns with
  | nil => rfl
  | cons n ns ih => simp [ih]

/-- Reading a texcoord record back field by field is the identity copy. -/
theorem map_texcoord_eta (ts : List TexCoord) :
    (ts.map fun t => (⟨t.u, t.v⟩ : TexCoord)) = ts := by
  induction ts with
  | nil => rfl
  | cons t ts ih => simp [ih]

/-- The vertices dispatch of the decoder inverts the vertices dispatch of the
encoder, for either raw flag, on well-formed payloads. -/
theorem loadVertices_encodeVertices (mv : MeshVertices) (raw : Bool)
    (h : meshVerticesWf mv = true) :
    ∃ wv, encodeVertices mv raw = some wv ∧ loadVertices wv = Except.ok mv := by
  cases mv with
  | Interleaved vs =>
      cases raw with
      | false =>
          refine ⟨_, rfl, ?_⟩
          simp [loadVertices, encodeVertices, map_vertex_eta]
      | true =>
          refine ⟨_, rfl, ?_⟩
          simp only [encodeVertices, loadVertices]
          have hlen : (verticesBlob vs).length % vertexSize = 0 := by
            rw [verticesBlob_length, vertexSize]
            omega
          simp [hlen, verticesBlob_rt vs h]
  | Discrete vs =>
      simp only [meshVerticesWf, Bool.and_eq_true] at h
      obtain ⟨⟨hp, hn⟩, hu⟩ := h
      cases raw with
      | false =>
          refine ⟨_, rfl, ?_⟩
          simp only [encodeVertices, loadVertices]
          rcases hns : vs.normals with _ | ns <;> rcases hus : vs.uvs with _ | us <;>
            simp only [Except.ok.injEq, MeshVertices.Discrete.injEq]
          · rw [map_point_eta, map_point_eta, ← hns, ← hus]
          · rw [map_point_eta, map_point_eta, map_texcoord_eta, map_texcoord_eta, ← hns, ← hus]
          · rw [map_point_eta, map_point_eta, map_vector_eta, map_vector_eta, ← hns, ← hus]
          · rw [map_point_eta, map_point_eta, map_vector_eta, map_vector_eta, map_texcoord_eta,
              map_texcoord_eta, ← hns, ← hus]
      | true =>
          refine ⟨_, rfl, ?_⟩
          have hpm : (pointsBlob vs.positions).length % pointSize = 0 := by
            rw [pointsBlob_length, pointSize]
            omega
          rcases hns : vs.normals with _ | ns <;> rcases hus : vs.uvs with _ | us <;>
            rw [hns] at hn <;> rw [hus] at hu
          · simp only [encodeVertices, loadVertices]
            simp [hpm, pointsBlob_rt vs.positions hp, ← hns, ← hus]
          · have hum : (texcoordsBlob us).length % texcoordSize = 0 := by
              rw [texcoordsBlob_length, texcoordSize]
              omega
            simp only [encodeVertices, loadVertices]
            simp [hpm, hum, pointsBlob_rt vs.positions hp, texcoordsBlob_rt us hu, ← hns, ← hus]
          · have hnm : (vectorsBlob ns).length % vectorSize = 0 := by
              rw [vectorsBlob_length, vectorSize]
              omega
            simp only [encodeVertices, loadVertices]
            simp [hpm, hnm, pointsBlob_rt vs.positions hp, vectorsBlob_rt ns hn, ← hns, ← hus]
          · have hnm : (vectorsBlob ns).length % vectorSize = 0 := by
              rw [vectorsBlob_length, vectorSize]
              omega
            have hum : (texcoordsBlob us).length % texcoordSize = 0 := by
              rw [texcoordsBlob_length, texcoordSize]
              omega
            simp only [encodeVertices, loadVertices]
            simp [hpm, hnm, hum, pointsBlob_rt vs.positions hp, vectorsBlob_rt ns hn,
              texcoordsBlob_rt us hu, ← hns, ← hus]

/-- Decoding the wire message written by a successful encode recovers the
mesh, for either raw flag, on well-formed meshes. -/
theorem loadMesh_saveMeshWire (m : Mesh) (raw : Bool) (h : meshWf m = true) :
    ∃ w, saveMeshWire m raw = some w ∧ loadMeshFromReader w = Except.ok m := by
  obtain ⟨wv, henc, hload⟩ := loadVertices_encodeVertices m.vertices raw h
  refine ⟨{ indices := Except.ok
              (match m.indices with
               | some indicesList => some (indicesList.map fun i => i)
               | none => none),
            materials := Except.ok (m.materials.map fun x => x),
            vertices := Except.ok wv }, ?_, ?_⟩
  · simp only [saveMeshWire, henc]
  · cases m with
    | mk mvert mind mmat =>
        simp only at henc hload
        cases mind with
        | none => simp [loadMeshFromReader, hload, List.map_id']
        | some is => simp [loadMeshFromReader, hload, List.map_id']

/-! ## Claims -/

/-- C1.  For every well-formed `Mesh` `m` and every `raw` flag, decoding the
result of encoding `m` with that flag yields a `Mesh` equal to `m`
field-for-field — for both vertex-layout variants, for indices absent,
present-empty and present-nonempty, and for materials of any length. -/
theorem c1_mesh_round_trip (m : Mesh) (raw : Bool) (h : meshWf m = true) :
    ∃ w, saveMeshWire m raw = some w ∧ loadMeshFromReader w = Except.ok m :=
  loadMesh_saveMeshWire m raw h

/-- The concrete vertex of spec §8: position (1,2,3), normal (0,0,1),
uv (0.5,0.5), components as IEEE-754 single bit patterns. -/
def sampleVertex : Vertex :=
  ⟨⟨1065353216, 1073741824, 1077936128⟩, ⟨0, 0, 1065353216⟩,
   ⟨1056964608, 1056964608⟩⟩

/-- Witness for C1 at a concrete interleaved mesh with nonempty indices and
one material, raw mode. -/
theorem c1_mesh_round_trip_witness :
    meshWf ⟨MeshVertices.Interleaved [sampleVertex], some [0, 1, 2], [7]⟩ = true ∧
    ∃ w, saveMeshWire ⟨MeshVertices.Interleaved [sampleVertex], some [0, 1, 2], [7]⟩ true =
        some w ∧
      loadMeshFromReader w =
        Except.ok ⟨MeshVertices.Interleaved [sampleVertex], some [0, 1, 2], [7]⟩ :=
  ⟨by decide, c1_mesh_round_trip ⟨MeshVertices.Interleaved [sampleVertex], some [0, 1, 2], [7]⟩
    true (by decide)⟩

/-- C2.  Decoding the InterleavedRaw variant: a blob whose byte length is not
an exact multiple of the fixed 32-byte `Vertex` record size fails with
`InvalidLength`; a blob of length exactly k × 32 decodes to exactly k
interleaved vertices. -/
theorem c2_interleaved_raw_length (blob : List Nat) (iopt : Option (List Nat))
    (mats : List Nat) :
    vertexSize = 32 ∧
    (blob.length % vertexSize ≠ 0 →
      loadMeshFromReader ⟨Except.ok iopt, Except.ok mats,
          Except.ok (WireVertices.interleavedRaw blob)⟩ =
        Except.error ProtocolError.invalidLength) ∧
    (blob.length % vertexSize = 0 →
      ∃ m, loadMeshFromReader ⟨Except.ok iopt, Except.ok mats,
          Except.ok (WireVertices.interleavedRaw blob)⟩ = Except.ok m ∧
        ∃ vs, m.vertices = MeshVertices.Interleaved vs ∧
          vs.length = blob.length / vertexSize) := by
  refine ⟨rfl, ?_, ?_⟩
  · intro hbad
    simp [loadMeshFromReader, loadVertices, hbad]
  · intro hok
    simp only [loadMeshFromReader, ok_bind, loadVertices]
    rw [if_neg (by simp [hok])]
    simp only [ok_bind]
    refine ⟨_, rfl, _, rfl, ?_⟩
    rw [wordsToVertices_length, bytesToWords_length, Nat.div_div_eq_div_mul, vertexSize]

/-- Witness for C2: a 17-byte blob fails with `InvalidLength`; a 64-byte blob
decodes to exactly 2 vertices. -/
theorem c2_interleaved_raw_length_witness :
    loadMeshFromReader ⟨Except.ok none, Except.ok [],
        Except.ok (WireVertices.interleavedRaw (List.replicate 17 0))⟩ =
      Except.error ProtocolError.invalidLength ∧
    ∃ m, loadMeshFromReader ⟨Except.ok none, Except.ok [],
        Except.ok (WireVertices.interleavedRaw (List.replicate 64 0))⟩ = Except.ok m ∧
      ∃ vs, m.vertices = MeshVertices.Interleaved vs ∧
        vs.length = (List.replicate 64 (0 : Nat)).length / vertexSize :=
  ⟨(c2_interleaved_raw_length (List.replicate 17 0) none []).2.1 (by decide),
   (c2_interleaved_raw_length (List.replicate 64 0) none []).2.2 (by decide)⟩

/-- C3.  Cross-mode equivalence: encoding an interleaved vertex sequence with
`raw = false` then decoding, and encoding the same sequence with `raw = true`
then decoding, yield the same mesh back — field-identical `Vertex` values
with bit-identical floating components, both of logical type
`MeshVertices.Interleaved`. -/
theorem c3_cross_mode_equivalence (vs : List Vertex) (indices : Option (List Nat))
    (materials : List Nat) (h : vs.all vertexWf = true) :
    ∃ w0 w1,
      saveMeshWire ⟨MeshVertices.Interleaved vs, indices, materials⟩ false = some w0 ∧
      saveMeshWire ⟨MeshVertices.Interleaved vs, indices, materials⟩ true = some w1 ∧
      loadMeshFromReader w0 =
        Except.ok ⟨MeshVertices.Interleaved vs, indices, materials⟩ ∧
      loadMeshFromReader w1 =
        Except.ok ⟨MeshVertices.Interleaved vs, indices, materials⟩ := by
  obtain ⟨w0, h0, h0l⟩ :=
    loadMesh_saveMeshWire ⟨MeshVertices.Interleaved vs, indices, materials⟩ false h
  obtain ⟨w1, h1, h1l⟩ :=
    loadMesh_saveMeshWire ⟨MeshVertices.Interleaved vs, indices, materials⟩ true h
  exact ⟨w0, w1, h0, h1, h0l, h1l⟩

/-- Witness for C3 at the concrete vertex of spec §8. -/
theorem c3_cross_mode_equivalence_witness :
    [sampleVertex].all vertexWf = true ∧
    ∃ w0 w1,
      saveMeshWire ⟨MeshVertices.Interleaved [sampleVertex], none, []⟩ false = some w0 ∧
      saveMeshWire ⟨MeshVertices.Interleaved [sampleVertex], none, []⟩ true = some w1 ∧
      loadMeshFromReader w0 =
        Except.ok ⟨MeshVertices.Interleaved [sampleVertex], none, []⟩ ∧
      loadMeshFromReader w1 =
        Except.ok ⟨MeshVertices.Interleaved [sampleVertex], none, []⟩ :=
  ⟨by decide, c3_cross_mode_equivalence [sampleVertex] none [] (by decide)⟩

/-- C4.  Optionality fidelity: a Discrete mesh with `normals = none` and
`uvs = some uvs` round-trips to exactly `normals = none` and
`uvs = some uvs`, in both raw and non-raw modes — absence is never conflated
with an empty present sequence. -/
theorem c4_optionality_fidelity (ps : List Point3f) (uvs : List TexCoord)
    (indices : Option (List Nat)) (materials : List Nat) (raw : Bool)
    (hp : ps.all pointWf = true) (hu : uvs.all texcoordWf = true) :
    ∃ w, saveMeshWire ⟨MeshVertices.Discrete ⟨ps, none, some uvs⟩, indices, materials⟩
        raw = some w ∧
      loadMeshFromReader w =
        Except.ok ⟨MeshVertices.Discrete ⟨ps, none, some uvs⟩, indices, materials⟩ := by
  apply loadMesh_saveMeshWire
  simp [meshWf, meshVerticesWf, hp, hu]

/-- Witness for C4 at a concrete one-point, one-uv discrete mesh, raw mode. -/
theorem c4_optionality_fidelity_witness :
    [(⟨1, 2, 3⟩ : Point3f)].all pointWf = true ∧
    [(⟨1056964608, 1056964608⟩ : TexCoord)].all texcoordWf = true ∧
    ∃ w, saveMeshWire ⟨MeshVertices.Discrete ⟨[⟨1, 2, 3⟩], none,
          some [⟨1056964608, 1056964608⟩]⟩, none, [5]⟩ true = some w ∧
      loadMeshFromReader w =
        Except.ok ⟨MeshVertices.Discrete ⟨[⟨1, 2, 3⟩], none,
          some [⟨1056964608, 1056964608⟩]⟩, none, [5]⟩ :=
  ⟨by decide, by decide,
   c4_optionality_fidelity [⟨1, 2, 3⟩] [⟨1056964608, 1056964608⟩] none [5] true
     (by decide) (by decide)⟩

/-- C5.  The encoder's dispatch over (vertex-layout variant, raw flag) is
total: every combination selects one of the four handled arms, and the
fallback arm that signals a programming-invariant violation (`unreachable!`,
modelled by `none` / `SaveOutcome.panic`) is never reached. -/
theorem c5_dispatch_total :
    (∀ mv raw, ∃ wv, encodeVertices mv raw = some wv) ∧
    (∀ b m raw setSome, (saveMeshToBuilder b m raw setSome).2 ≠ SaveOutcome.panic) := by
  constructor
  · intro mv raw
    cases mv <;> cases raw <;> simp [encodeVertices]
  · intro b m raw setSome
    cases hmv : m.vertices with
    | Interleaved vs => cases raw <;> simp [saveMeshToBuilder, hmv]
    | Discrete vs =>
        cases raw with
        | false => simp [saveMeshToBuilder, hmv]
        | true =>
            rcases hn : vs.normals with _ | ns <;> rcases hu : vs.uvs with _ | us
            · simp [saveMeshToBuilder, hmv, hn, hu]
            · rcases hs : setSome (texcoordsBlob us) with _ | e <;>
                simp [saveMeshToBuilder, hmv, hn, hu, hs]
            · rcases hs : setSome (vectorsBlob ns) with _ | e <;>
                simp [saveMeshToBuilder, hmv, hn, hu, hs]
            · rcases hs : setSome (vectorsBlob ns) with _ | e
              · rcases hs2 : setSome (texcoordsBlob us) with _ | e2 <;>
                  simp [saveMeshToBuilder, hmv, hn, hu, hs, hs2]
              · simp [saveMeshToBuilder, hmv, hn, hu, hs]

/-- Lifting a successful vertices decode to the whole message: with all three
top-level reads succeeding, the decoder assembles the mesh from the decoded
vertices, the optional indices and the copied materials. -/
theorem loadMesh_ok_of_vertices (iopt : Option (List Nat)) (mats : List Nat)
    (wv : WireVertices) (mv : MeshVertices) (h : loadVertices wv = Except.ok mv) :
    loadMeshFromReader ⟨Except.ok iopt, Except.ok mats, Except.ok wv⟩ =
      Except.ok ⟨mv,
        (match iopt with
         | some indicesList => some (indicesList.map fun i => i)
         | none => none),
        mats.map fun x => x⟩ := by
  cases iopt <;> simp [loadMeshFromReader, h]

/-- C6.  Decoding the DiscreteRaw variant: each of the three blobs is
validated independently against the fixed byte size of its own element type
(`Point3f` 12, `Vector3f` 12, `TexCoord` 8); a blob whose length is not a
multiple of that size fails the decode with `InvalidLength`, and each
optional blob independently follows the Some/None convention, `none`
decoding to an absent sequence. -/
theorem c6_discrete_raw_validation (pb : List Nat) (nbo ubo : Option (List Nat))
    (iopt : Option (List Nat)) (mats : List Nat) :
    pointSize = 12 ∧ vectorSize = 12 ∧ texcoordSize = 8 ∧
    (pb.length % pointSize ≠ 0 →
      loadMeshFromReader ⟨Except.ok iopt, Except.ok mats,
          Except.ok (WireVertices.discreteRaw pb nbo ubo)⟩ =
        Except.error ProtocolError.invalidLength) ∧
    (∀ nb, nbo = some nb → pb.length % pointSize = 0 → nb.length % vectorSize ≠ 0 →
      loadMeshFromReader ⟨Except.ok iopt, Except.ok mats,
          Except.ok (WireVertices.discreteRaw pb nbo ubo)⟩ =
        Except.error ProtocolError.invalidLength) ∧
    (∀ ub, ubo = some ub → pb.length % pointSize = 0 →
      (∀ nb, nbo = some nb → nb.length % vectorSize = 0) →
      ub.length % texcoordSize ≠ 0 →
      loadMeshFromReader ⟨Except.ok iopt, Except.ok mats,
          Except.ok (WireVertices.discreteRaw pb nbo ubo)⟩ =
        Except.error ProtocolError.invalidLength) ∧
    (pb.length % pointSize = 0 →
      (∀ nb, nbo = some nb → nb.length % vectorSize = 0) →
      (∀ ub, ubo = some ub → ub.length % texcoordSize = 0) →
      ∃ m vsd, loadMeshFromReader ⟨Except.ok iopt, Except.ok mats,
          Except.ok (WireVertices.discreteRaw pb nbo ubo)⟩ = Except.ok m ∧
        m.vertices = MeshVertices.Discrete vsd ∧
        vsd.positions.length = pb.length / pointSize ∧
        (nbo = none → vsd.normals = none) ∧
        (∀ nb, nbo = some nb →
          ∃ nl, vsd.normals = some nl ∧ nl.length = nb.length / vectorSize) ∧
        (ubo = none → vsd.uvs = none) ∧
        (∀ ub, ubo = some ub →
          ∃ ul, vsd.uvs = some ul ∧ ul.length = ub.length / texcoordSize)) := by
  refine ⟨rfl, rfl, rfl, ?_, ?_, ?_, ?_⟩
  · intro hbad
    simp [loadMeshFromReader, loadVertices, hbad]
  · intro nb hnb hpok hnbad
    simp [loadMeshFromReader, loadVertices, hnb, hpok, hnbad]
  · intro ub hub hpok hnok hubad
    rcases nbo with _ | nb
    · simp [loadMeshFromReader, loadVertices, hub, hpok, hubad]
    · have hnb := hnok nb rfl
      simp [loadMeshFromReader, loadVertices, hub, hpok, hnb, hubad]
  · intro hpok hnok huok
    have hplen : (wordsToPoints (bytesToWords pb)).length = pb.length / pointSize := by
      rw [wordsToPoints_length, bytesToWords_length, Nat.div_div_eq_div_mul, pointSize]
    rcases nbo with _ | nb <;> rcases ubo with _ | ub
    · have hv : loadVertices (WireVertices.discreteRaw pb none none) =
          Except.ok (MeshVertices.Discrete
            ⟨wordsToPoints (bytesToWords pb), none, none⟩) := by
        simp [loadVertices, hpok]
      refine ⟨_, _, loadMesh_ok_of_vertices iopt mats _ _ hv, rfl, hplen, ?_, ?_, ?_, ?_⟩
      · exact fun h => rfl
      · exact fun nb h => by cases h
      · exact fun h => rfl
      · exact fun ub h => by cases h
    · have hu := huok ub rfl
      have hv : loadVertices (WireVertices.discreteRaw pb none (some ub)) =
          Except.ok (MeshVertices.Discrete
            ⟨wordsToPoints (bytesToWords pb), none,
             some (wordsToTexCoords (bytesToWords ub))⟩) := by
        simp [loadVertices, hpok, hu]
      refine ⟨_, _, loadMesh_ok_of_vertices iopt mats _ _ hv, rfl, hplen, ?_, ?_, ?_, ?_⟩
      · exact fun h => rfl
      · exact fun nb h => by cases h
      · exact fun h => by cases h
      · intro ub2 h
        cases h
        refine ⟨_, rfl, ?_⟩
        rw [wordsToTexCoords_length, bytesToWords_length, Nat.div_div_eq_div_mul,
          texcoordSize]
    · have hn := hnok nb rfl
      have hv : loadVertices (WireVertices.discreteRaw pb (some nb) none) =
          Except.ok (MeshVertices.Discrete
            ⟨wordsToPoints (bytesToWords pb),
             some (wordsToVectors (bytesToWords nb)), none⟩) := by
        simp [loadVertices, hpok, hn]
      refine ⟨_, _, loadMesh_ok_of_vertices iopt mats _ _ hv, rfl, hplen, ?_, ?_, ?_, ?_⟩
      · exact fun h => by cases h
      · intro nb2 h
        cases h
        refine ⟨_, rfl, ?_⟩
        rw [wordsToVectors_length, bytesToWords_length, Nat.div_div_eq_div_mul, vectorSize]
      · exact fun h => rfl
      · exact fun ub h => by cases h
    · have hn := hnok nb rfl
      have hu := huok ub rfl
      have hv : loadVertices (WireVertices.discreteRaw pb (some nb) (some ub)) =
          Except.ok (MeshVertices.Discrete
            ⟨wordsToPoints (bytesToWords pb),
             some (wordsToVectors (bytesToWords nb)),
             some (wordsToTexCoords (bytesToWords ub))⟩) := by
        simp [loadVertices, hpok, hn, hu]
      refine ⟨_, _, loadMesh_ok_of_vertices iopt mats _ _ hv, rfl, hplen, ?_, ?_, ?_, ?_⟩
      · exact fun h => by cases h
      · intro nb2 h
        cases h
        refine ⟨_, rfl, ?_⟩
        rw [wordsToVectors_length, bytesToWords_length, Nat.div_div_eq_div_mul, vectorSize]
      · exact fun h => by cases h
      · intro ub2 h
        cases h
        refine ⟨_, rfl, ?_⟩
        rw [wordsToTexCoords_length, bytesToWords_length, Nat.div_div_eq_div_mul,
          texcoordSize]

/-- Witness for C6: a 12-byte positions blob with a 5-byte normals blob fails
with `InvalidLength`. -/
theorem c6_discrete_raw_validation_witness :
    loadMeshFromReader ⟨Except.ok none, Except.ok [],
        Except.ok (WireVertices.discreteRaw (List.replicate 12 0)
          (some (List.replicate 5 0)) none)⟩ =
      Except.error ProtocolError.invalidLength :=
  (c6_discrete_raw_validation (List.replicate 12 0) (some (List.replicate 5 0)) none
      none []).2.2.2.2.1 (List.replicate 5 0) rfl (by decide) (by decide)

/-- C7.  Decode is fail-fast and atomic in its result: the first failing
top-level read aborts the whole decode with its error propagated unchanged
(indices first, then materials, then vertices), and on failure no `Mesh`
value — in particular no partially assembled one — is ever returned. -/
theorem c7_fail_fast_atomic :
    (∀ w e, w.indices = Except.error e →
      loadMeshFromReader w = Except.error e) ∧
    (∀ w iopt e, w.indices = Except.ok iopt → w.materials = Except.error e →
      loadMeshFromReader w = Except.error e) ∧
    (∀ w iopt mats e, w.indices = Except.ok iopt → w.materials = Except.ok mats →
      w.vertices = Except.error e → loadMeshFromReader w = Except.error e) ∧
    (∀ w e m, loadMeshFromReader w = Except.error e →
      loadMeshFromReader w ≠ Except.ok m) := by
  refine ⟨?_, ?_, ?_, ?_⟩
  · intro w e h
    simp [loadMeshFromReader, h]
  · intro w iopt e h1 h2
    simp [loadMeshFromReader, h1, h2]
  · intro w iopt mats e h1 h2 h3
    simp [loadMeshFromReader, h1, h2, h3]
  · intro w e m he hok
    rw [he] at hok
    exact absurd hok (by simp)

/-- Witness for C7: a codec error in the indices read propagates unchanged
through the whole decode. -/
theorem c7_fail_fast_atomic_witness :
    loadMeshFromReader ⟨Except.error (ProtocolError.codec 3), Except.ok [],
        Except.ok (WireVertices.interleaved [])⟩ =
      Except.error (ProtocolError.codec 3) :=
  c7_fail_fast_atomic.1 ⟨Except.error (ProtocolError.codec 3), Except.ok [],
    Except.ok (WireVertices.interleaved [])⟩ (ProtocolError.codec 3) rfl

/-- C8.  The decoder does not enforce length consistency between the parallel
arrays of the Discrete variant: present normals or uvs sequences (or raw
blobs) whose lengths differ from the positions sequence decode without error,
with exactly the lengths found on the wire. -/
theorem c8_no_length_consistency (ps : List Point3f) (ns : List Vector3f)
    (us : List TexCoord) (pb nb ub : List Nat) (iopt : Option (List Nat))
    (mats : List Nat) :
    (∃ m, loadMeshFromReader ⟨Except.ok iopt, Except.ok mats,
        Except.ok (WireVertices.discrete ps (some ns) (some us))⟩ = Except.ok m ∧
      m.vertices = MeshVertices.Discrete ⟨ps, some ns, some us⟩) ∧
    (pb.length % pointSize = 0 → nb.length % vectorSize = 0 →
      ub.length % texcoordSize = 0 →
      ∃ m vsd, loadMeshFromReader ⟨Except.ok iopt, Except.ok mats,
          Except.ok (WireVertices.discreteRaw pb (some nb) (some ub))⟩ =
        Except.ok m ∧
        m.vertices = MeshVertices.Discrete vsd ∧
        vsd.positions.length = pb.length / pointSize ∧
        ∃ nl ul, vsd.normals = some nl ∧ vsd.uvs = some ul ∧
          nl.length = nb.length / vectorSize ∧
          ul.length = ub.length / texcoordSize) := by
  constructor
  · have hv : loadVertices (WireVertices.discrete ps (some ns) (some us)) =
        Except.ok (MeshVertices.Discrete ⟨ps, some ns, some us⟩) := by
      simp only [loadVertices, Except.ok.injEq, MeshVertices.Discrete.injEq]
      rw [map_point_eta, map_vector_eta, map_texcoord_eta]
    exact ⟨_, loadMesh_ok_of_vertices iopt mats _ _ hv, rfl⟩
  · intro hp hn hu
    have hv : loadVertices (WireVertices.discreteRaw pb (some nb) (some ub)) =
        Except.ok (MeshVertices.Discrete
          ⟨wordsToPoints (bytesToWords pb),
           some (wordsToVectors (bytesToWords nb)),
           some (wordsToTexCoords (bytesToWords ub))⟩) := by
      simp [loadVertices, hp, hn, hu]
    refine ⟨_, _, loadMesh_ok_of_vertices iopt mats _ _ hv, rfl, ?_, _, _, rfl, rfl,
      ?_, ?_⟩
    · rw [wordsToPoints_length, bytesToWords_length, Nat.div_div_eq_div_mul, pointSize]
    · rw [wordsToVectors_length, bytesToWords_length, Nat.div_div_eq_div_mul, vectorSize]
    · rw [wordsToTexCoords_length, bytesToWords_length, Nat.div_div_eq_div_mul,
        texcoordSize]

/-- Witness for C8: one position with two normals and three uvs decodes
without error; mismatched raw blob lengths (24, 12, 16 bytes → 2, 1, 2
elements) also decode without error. -/
theorem c8_no_length_consistency_witness :
    (∃ m, loadMeshFromReader ⟨Except.ok none, Except.ok [],
        Except.ok (WireVertices.discrete [⟨1, 2, 3⟩] (some [⟨4, 5, 6⟩, ⟨7, 8, 9⟩])
          (some [⟨1, 2⟩, ⟨3, 4⟩, ⟨5, 6⟩]))⟩ = Except.ok m ∧
      m.vertices = MeshVertices.Discrete
        ⟨[⟨1, 2, 3⟩], some [⟨4, 5, 6⟩, ⟨7, 8, 9⟩], some [⟨1, 2⟩, ⟨3, 4⟩, ⟨5, 6⟩]⟩) ∧
    (∃ m vsd, loadMeshFromReader ⟨Except.ok none, Except.ok [],
        Except.ok (WireVertices.discreteRaw (List.replicate 24 0)
          (some (List.replicate 12 0)) (some (List.replicate 16 0)))⟩ =
      Except.ok m ∧
      m.vertices = MeshVertices.Discrete vsd ∧
      vsd.positions.length = (List.replicate 24 (0 : Nat)).length / pointSize ∧
      ∃ nl ul, vsd.normals = some nl ∧ vsd.uvs = some ul ∧
        nl.length = (List.replicate 12 (0 : Nat)).length / vectorSize ∧
        ul.length = (List.replicate 16 (0 : Nat)).length / texcoordSize) :=
  ⟨(c8_no_length_consistency [⟨1, 2, 3⟩] [⟨4, 5, 6⟩, ⟨7, 8, 9⟩]
      [⟨1, 2⟩, ⟨3, 4⟩, ⟨5, 6⟩] [] [] [] none []).1,
   (c8_no_length_consistency [] [] [] (List.replicate 24 0) (List.replicate 12 0)
      (List.replicate 16 0) none []).2 (by decide) (by decide) (by decide)⟩

/-- C9.  Zero-length sequences are handled without error at every position:
empty vertex sequences (both variants, both modes), a present-but-empty index
sequence and zero materials encode successfully and decode back, and
zero-length raw byte blobs satisfy the length-multiple check and decode to
zero-length (present) sequences. -/
theorem c9_empty_sequences (raw : Bool) :
    (∃ w, saveMeshWire ⟨MeshVertices.Interleaved [], some [], []⟩ raw = some w ∧
      loadMeshFromReader w = Except.ok ⟨MeshVertices.Interleaved [], some [], []⟩) ∧
    (∃ w, saveMeshWire ⟨MeshVertices.Discrete ⟨[], some [], some []⟩, some [], []⟩
        raw = some w ∧
      loadMeshFromReader w =
        Except.ok ⟨MeshVertices.Discrete ⟨[], some [], some []⟩, some [], []⟩) ∧
    loadVertices (WireVertices.interleavedRaw []) =
      Except.ok (MeshVertices.Interleaved []) ∧
    loadVertices (WireVertices.discreteRaw [] (some []) (some [])) =
      Except.ok (MeshVertices.Discrete ⟨[], some [], some []⟩) := by
  refine ⟨?_, ?_, by decide, by decide⟩
  · exact loadMesh_saveMeshWire ⟨MeshVertices.Interleaved [], some [], []⟩ raw
      (by decide)
  · exact loadMesh_saveMeshWire
      ⟨MeshVertices.Discrete ⟨[], some [], some []⟩, some [], []⟩ raw (by decide)

/-- C10.  If the encoder's fallible write of the raw normals or uvs byte blob
in the DiscreteRaw path fails, the writes already performed on the write view
— the indices option, the materials list, and the positions blob (and the
normals option, when it was the uvs write that failed) — are left in place,
and the encoder returns the error unchanged without undoing or overwriting
any previously written field. -/
theorem c10_frame_on_write_error :
    (∀ (b : MeshBuilder) (vs : Vertices) (ns : List Vector3f)
       (indices : Option (List Nat)) (materials : List Nat)
       (setSome : List Nat → Option ProtocolError) (e : ProtocolError),
      vs.normals = some ns → setSome (vectorsBlob ns) = some e →
      saveMeshToBuilder b ⟨MeshVertices.Discrete vs, indices, materials⟩ true setSome =
        ({ indices := some
             (match indices with
              | some indicesList => some (indicesList.map fun i => i)
              | none => none),
           materials := some (materials.map fun m => m),
           vertices := VerticesField.discreteRaw (some (pointsBlob vs.positions))
             none none },
         SaveOutcome.err e)) ∧
    (∀ (b : MeshBuilder) (vs : Vertices) (ns : List Vector3f) (us : List TexCoord)
       (indices : Option (List Nat)) (materials : List Nat)
       (setSome : List Nat → Option ProtocolError) (e : ProtocolError),
      vs.normals = some ns → vs.uvs = some us →
      setSome (vectorsBlob ns) = none → setSome (texcoordsBlob us) = some e →
      saveMeshToBuilder b ⟨MeshVertices.Discrete vs, indices, materials⟩ true setSome =
        ({ indices := some
             (match indices with
              | some indicesList => some (indicesList.map fun i => i)
              | none => none),
           materials := some (materials.map fun m => m),
           vertices := VerticesField.discreteRaw (some (pointsBlob vs.positions))
             (some (some (vectorsBlob ns))) none },
         SaveOutcome.err e)) := by
  constructor
  · intro b vs ns indices materials setSome e hn hs
    simp [saveMeshToBuilder, hn, hs]
  · intro b vs ns us indices materials setSome e hn hu hsn hsu
    simp [saveMeshToBuilder, hn, hu, hsn, hsu]

/-- Witness for C10: a failing normals-blob write leaves the indices,
materials and positions writes in place and returns the codec error. -/
theorem c10_frame_on_write_error_witness :
    saveMeshToBuilder MeshBuilder.empty
        ⟨MeshVertices.Discrete ⟨[⟨1, 2, 3⟩], some [⟨4, 5, 6⟩], some [⟨7, 8⟩]⟩,
         some [1], [2]⟩ true (fun _ => some (ProtocolError.codec 7)) =
      ({ indices := some (some [1]), materials := some [2],
         vertices := VerticesField.discreteRaw (some (pointsBlob [⟨1, 2, 3⟩]))
           none none },
       SaveOutcome.err (ProtocolError.codec 7)) :=
  c10_frame_on_write_error.1 MeshBuilder.empty
    ⟨[⟨1, 2, 3⟩], some [⟨4, 5, 6⟩], some [⟨7, 8⟩]⟩ [⟨4, 5, 6⟩] (some [1]) [2]
    (fun _ => some (ProtocolError.codec 7)) (ProtocolError.codec 7) rfl rfl

end Combustion
